import Mathlib

/-!
Verification of the Viewport Rendering & Reading-Session Tracking engine of
the better-pdf-reader repository.

The development shallowly embeds the two source units the specification is
about:

* the `useReadingStats` hook (session clock and per-page reading ledger):
  timestamps are `Int` milliseconds (values of `Date.now()`), React state and
  refs become fields of `SessionState`, and each handler/effect becomes a pure
  state-transition function;
* the `PdfViewer` component (render scheduler, visibility tracker, navigation
  lock, zoom): the refs/state of the component become fields of `SchedState`,
  the `async` function `renderPage` becomes a small-step thread system whose
  suspension points are exactly the `await`s of the source, and the
  IntersectionObserver callback and the zoom handlers become pure functions.
-/

namespace PdfReader

/-! ### Session clock and ledger (useReadingStats) -/

/-- One ledger entry: `interface PageTime { page: number; duration: number }`
(duration in milliseconds). -/
structure PageTime where
  page : Nat
  duration : Int
deriving DecidableEq, Repr

/-- The state of the `useReadingStats` hook: React state `startTime`,
`history`, `isPaused`, the ref `pauseStartRef` and the ref
`lastPageParams = { page, time }`.  Timestamps are `Int` milliseconds;
`Date.now()` is never `0`, so the JS truthiness test on `pauseStartRef.current`
is modelled by the `Option`. -/
structure SessionState where
  startTime : Int
  history : List PageTime
  isPaused : Bool
  pauseStart : Option Int
  lastPage : Nat
  lastTime : Int
deriving DecidableEq, Repr

/-- `togglePause` of the hook, called at wall-clock time `now`.
When paused and `pauseStartRef.current` is set it computes
`pauseDuration = now - pauseStartRef.current`, shifts `startTime` and
`lastPageParams.current.time` forward by it and clears the pause; when not
paused it records `pauseStartRef.current = now`. -/
def togglePause (s : SessionState) (now : Int) : SessionState :=
  if s.isPaused then
    match s.pauseStart with
    | some ps =>
        { s with
          startTime := s.startTime + (now - ps)
          lastTime := s.lastTime + (now - ps)
          pauseStart := none
          isPaused := false }
    | none => { s with pauseStart := none, isPaused := false }
  else
    { s with pauseStart := some now, isPaused := true }

/-- `getSessionDuration`: if paused (and the pause timestamp is set) the frozen
value `pauseStartRef.current - startTime`, otherwise the live
`Date.now() - startTime`. -/
def getSessionDuration (s : SessionState) (now : Int) : Int :=
  match s.isPaused, s.pauseStart with
  | true, some ps => ps - s.startTime
  | _, _ => now - s.startTime

/-- `getCurrentPageDuration`: same shape, relative to
`lastPageParams.current.time`. -/
def getCurrentPageDuration (s : SessionState) (now : Int) : Int :=
  match s.isPaused, s.pauseStart with
  | true, some ps => ps - s.lastTime
  | _, _ => now - s.lastTime

/-- The `setHistory` updater of the page-change effect: look for an existing
entry for `lastPage` with `findIndex`, add the duration onto it when found,
otherwise append a fresh entry at the end. -/
def recordHistory (prev : List PageTime) (lastPage : Nat) (duration : Int) :
    List PageTime :=
  match prev.findIdx? (fun x => x.page == lastPage) with
  | some i =>
      match prev[i]? with
      | some item => prev.set i { item with duration := item.duration + duration }
      | none => prev
  | none => prev ++ [{ page := lastPage, duration := duration }]

/-- The page-change effect of the hook, run with the new `currentPage` at time
`now`.  While paused it only updates the tracked page index; while unpaused and
the page really changed it records `now - lastTime` for the page left behind
and restarts the marker at `now`. -/
def pageChangeEffect (s : SessionState) (currentPage : Nat) (now : Int) :
    SessionState :=
  if s.isPaused then
    { s with lastPage := currentPage }
  else
    if s.lastPage ≠ currentPage then
      { s with
        history := recordHistory s.history s.lastPage (now - s.lastTime)
        lastPage := currentPage
        lastTime := now }
    else s

/-- `totalPagesRead = new Set(history.map(h => h.page)).size`. -/
def totalPagesRead (history : List PageTime) : Nat :=
  (history.map PageTime.page).dedup.length

/-- Modelled from the spec: the ledger update described by the specification
("if a Page Duration Record for `pageIndex` exists, add `durationMs` to its
`accumulatedDurationMs`, else append a new record at the end"), written as
direct structural recursion; compared with `recordHistory` in the C4
theorem. -/
def recordSpec : List PageTime → Nat → Int → List PageTime
  | [], p, d => [{ page := p, duration := d }]
  | e :: rest, p, d =>
      if e.page = p then { e with duration := e.duration + d } :: rest
      else e :: recordSpec rest p d

/-- Session state at the start of the C4 scenario: the reader is on page 3 at
time 10000 with an empty ledger. -/
def scenarioStart : SessionState :=
  { startTime := 10000, history := [], isPaused := false, pauseStart := none
    lastPage := 3, lastTime := 10000 }

/-- The C4 scenario: page 3 for 2000 ms, page 4 for 500 ms, page 3 again for
1000 ms, then a final switch (to page 5) that flushes the last visit. -/
def scenarioEnd : SessionState :=
  pageChangeEffect
    (pageChangeEffect (pageChangeEffect scenarioStart 4 12000) 3 12500) 5 13500

/-! ### Visibility observations and the IntersectionObserver callback
(PdfViewer) -/

/-- One IntersectionObserver entry as consumed by the callback: the page index
parsed from the `data-page` attribute, `intersectionRatio` and
`isIntersecting`. -/
structure Entry where
  pageIndex : Nat
  intersectionRatio : ℚ
  isIntersecting : Bool
deriving DecidableEq, Repr

/-- The `reduce` of the callback over the non-empty list of intersecting
entries: `(prev, current) => current.intersectionRatio > prev.intersectionRatio
? current : prev`, with the first element as the accumulator seed. -/
def mostVisible (e : Entry) (tl : List Entry) : Entry :=
  tl.foldl
    (fun prev current =>
      if prev.intersectionRatio < current.intersectionRatio then current
      else prev) e

/-- The election performed by the callback:
`entries.filter(e => e.isIntersecting)` followed by the `reduce`; `none` when
no entry intersects (the callback then leaves `visiblePage` alone). -/
def electVisible (entries : List Entry) : Option Entry :=
  match entries.filter (fun e => e.isIntersecting) with
  | [] => none
  | e :: rest => some (mostVisible e rest)

/-- The effect of one IntersectionObserver callback batch on the `visiblePage`
state: when some entry intersects and `isScrollingRef.current` is not set, the
most visible entry's page is elected (guarded by `pageNum > 0`); otherwise
`visiblePage` is unchanged. -/
def observerElectStep (isScrolling : Bool) (visiblePage : Nat)
    (entries : List Entry) : Nat :=
  match entries.filter (fun e => e.isIntersecting) with
  | [] => visiblePage
  | e :: rest =>
      if isScrolling then visiblePage
      else
        let m := mostVisible e rest
        if 0 < m.pageIndex then m.pageIndex else visiblePage

/-- The render triggers issued by the same callback batch: for every entry with
`isIntersecting` whose parsed page number is positive, `renderPage(pageNum)` is
invoked. -/
def renderTriggers (entries : List Entry) : List Nat :=
  (entries.filter (fun e => e.isIntersecting)).filterMap
    (fun e => if 0 < e.pageIndex then some e.pageIndex else none)

/-! ### The render scheduler (PdfViewer.renderPage) as a small-step system

`renderPage` is an `async` function; in the browser its body runs atomically
between `await`s.  The suspension points of the source are: the 10 ms
`setTimeout` wait after cancelling a stale task, `await pdf.getPage(pageNum)`,
and `await renderTask.promise`.  A suspended invocation is a `Thread`; the
event loop (and the IntersectionObserver issuing new calls) is the
nondeterministic scheduler, modelled by an explicit list of `Step`s. -/

/-- Where a suspended `renderPage(pageNum)` invocation is parked. -/
inductive ThreadPC where
  /-- Suspended at `await new Promise(resolve => setTimeout(resolve, 10))`
  after calling `existingTask.cancel()`. -/
  | afterCancelWait
  /-- Suspended at `await pdf.getPage(pageNum)` (the rendering lock for the
  page is already held). -/
  | afterGetPage
  /-- Suspended at `await renderTask.promise`: a render operation with the
  given task id is in flight for the page. -/
  | awaitingRender (task : Nat)
deriving DecidableEq, Repr

/-- A suspended `renderPage` invocation. -/
structure Thread where
  page : Nat
  pc : ThreadPC
deriving DecidableEq, Repr

/-- How `await renderTask.promise` settles.  `failureCancelled` stands for a
rejection whose lower-cased message contains "cancelled" or "multiple render"
(the two substrings the catch block tests); `failureOther` for any other
rejection. -/
inductive RenderOutcome where
  | success
  | failureCancelled
  | failureOther
deriving DecidableEq, Repr

/-- The viewer state touched by `renderPage` and the scale effect:
`scale` (React state), the pages that own a canvas (`canvasRefs`),
`renderedPages` (React state, a `Set<number>`), `renderingPagesRef`
(a `Set<number>`), `renderTasksRef` (a `Map<number, RenderTask>`, task ids
are abstract `Nat`s), the suspended invocations, a fresh-task counter, and the
pages whose failures were reported through `console.error`. -/
structure SchedState where
  scale : ℚ
  canvases : List Nat
  renderedPages : List Nat
  renderingPages : List Nat
  renderTasks : List (Nat × Nat)
  threads : List Thread
  nextTaskId : Nat
  loggedErrors : List Nat
deriving DecidableEq, Repr

/-- `Map.get` on the task map. -/
def tasksGet (tasks : List (Nat × Nat)) (p : Nat) : Option Nat :=
  match tasks.find? (fun kv => kv.1 == p) with
  | some kv => some kv.2
  | none => none

/-- `Map.delete` on the task map. -/
def tasksErase (tasks : List (Nat × Nat)) (p : Nat) : List (Nat × Nat) :=
  tasks.filter (fun kv => kv.1 != p)

/-- `Map.set` on the task map (overwrites any entry for the page). -/
def tasksSet (tasks : List (Nat × Nat)) (p t : Nat) : List (Nat × Nat) :=
  (p, t) :: tasksErase tasks p

/-- `Set.add`. -/
def setInsert (s : List Nat) (p : Nat) : List Nat :=
  if p ∈ s then s else p :: s

/-- `Set.delete`. -/
def setErase (s : List Nat) (p : Nat) : List Nat :=
  s.filter (fun q => q != p)

/-- The synchronous prefix of a `renderPage(p)` call, exactly as the source
orders it: return if the page has no canvas; return if
`renderedPages.has(pageNum)`; return if `renderingPagesRef.current.has(pageNum)`;
if `renderTasksRef.current` holds a task for the page, cancel it and suspend at
the 10 ms wait (the lock is NOT yet taken there); otherwise take the lock
(`renderingPagesRef.current.add`) and suspend at `await pdf.getPage`. -/
def spawn (σ : SchedState) (p : Nat) : SchedState :=
  if p ∉ σ.canvases then σ
  else if p ∈ σ.renderedPages then σ
  else if p ∈ σ.renderingPages then σ
  else
    match tasksGet σ.renderTasks p with
    | some _ =>
        { σ with threads := σ.threads ++ [⟨p, ThreadPC.afterCancelWait⟩] }
    | none =>
        { σ with
          renderingPages := setInsert σ.renderingPages p
          threads := σ.threads ++ [⟨p, ThreadPC.afterGetPage⟩] }

/-- Resuming one suspended invocation (already removed from the thread list)
and running it to its next suspension point or to completion:

* after the cancellation wait: `renderTasksRef.current.delete(pageNum)`, take
  the lock, suspend at `await pdf.getPage`;
* after `getPage`: viewport and canvas sizing are external; start the render
  task, record it in `renderTasksRef`, suspend at `await renderTask.promise`;
* when the render promise settles: on success delete the task entry, add the
  page to `renderedPages` and release the lock (`finally`); on a
  cancelled/multiple-render rejection return silently, releasing the lock; on
  any other rejection `console.error` and release the lock (the task entry is
  NOT deleted on either failure path — the `delete` sits after the `await`). -/
def resumeThread (σ : SchedState) (th : Thread) (out : RenderOutcome) :
    SchedState :=
  match th.pc with
  | ThreadPC.afterCancelWait =>
      { σ with
        renderTasks := tasksErase σ.renderTasks th.page
        renderingPages := setInsert σ.renderingPages th.page
        threads := σ.threads ++ [⟨th.page, ThreadPC.afterGetPage⟩] }
  | ThreadPC.afterGetPage =>
      { σ with
        renderTasks := tasksSet σ.renderTasks th.page σ.nextTaskId
        nextTaskId := σ.nextTaskId + 1
        threads := σ.threads ++ [⟨th.page, ThreadPC.awaitingRender σ.nextTaskId⟩] }
  | ThreadPC.awaitingRender _ =>
      match out with
      | RenderOutcome.success =>
          { σ with
            renderTasks := tasksErase σ.renderTasks th.page
            renderedPages := setInsert σ.renderedPages th.page
            renderingPages := setErase σ.renderingPages th.page }
      | RenderOutcome.failureCancelled =>
          { σ with renderingPages := setErase σ.renderingPages th.page }
      | RenderOutcome.failureOther =>
          { σ with
            loggedErrors := σ.loggedErrors ++ [th.page]
            renderingPages := setErase σ.renderingPages th.page }

/-- One scheduler event: the IntersectionObserver invokes `renderPage p`, or
the event loop resumes the suspended invocation at position `i` (with the
environment choosing how a settled render promise settled). -/
inductive Step where
  | call (p : Nat)
  | resume (i : Nat) (out : RenderOutcome)
deriving DecidableEq, Repr

/-- Apply one scheduler event. -/
def doStep (σ : SchedState) : Step → SchedState
  | Step.call p => spawn σ p
  | Step.resume i out =>
      match σ.threads[i]? with
      | none => σ
      | some th => resumeThread { σ with threads := σ.threads.eraseIdx i } th out

/-- Run a sequence of scheduler events. -/
def runSteps (σ : SchedState) (steps : List Step) : SchedState :=
  steps.foldl doStep σ

/-- An invocation parked at `await renderTask.promise` is an in-flight render
operation. -/
def isInFlight : ThreadPC → Bool
  | ThreadPC.awaitingRender _ => true
  | _ => false

/-- Number of in-flight render operations for page `p`. -/
def inFlightCount (σ : SchedState) (p : Nat) : Nat :=
  (σ.threads.filter (fun th => th.page == p && isInFlight th.pc)).length

/-- The spec's Render Record status set.  `Stale` is the fourth status the
specification postulates; the abstraction `statusOf` of the code state never
produces it, which is what claim C3 is about. -/
inductive RenderStatus where
  | Unrendered
  | Rendering
  | Rendered
  | Stale
deriving DecidableEq, Repr

/-- The status abstraction of the code state, in the order the source consults
its bookkeeping: a page in `renderedPages` is Rendered (the loading
placeholder is hidden and `renderPage` returns at its first check), otherwise
a page in `renderingPagesRef` is Rendering, otherwise Unrendered. -/
def statusOf (σ : SchedState) (p : Nat) : RenderStatus :=
  if p ∈ σ.renderedPages then RenderStatus.Rendered
  else if p ∈ σ.renderingPages then RenderStatus.Rendering
  else RenderStatus.Unrendered

/-- The loading placeholder of a page is shown iff `!renderedPages.has(pageNum)`. -/
def showsLoadingPlaceholder (σ : SchedState) (p : Nat) : Bool :=
  decide (p ∉ σ.renderedPages)

/-- The scale-change effect: `setScale(s2)` followed by the effect keyed on
`[scale]`, which runs `setRenderedPages(new Set())`. -/
def scaleChangeEffect (σ : SchedState) (s2 : ℚ) : SchedState :=
  { σ with scale := s2, renderedPages := [] }

/-- A freshly-mounted viewer with one page container, no render yet. -/
def initSched : SchedState :=
  { scale := 1.5, canvases := [1], renderedPages := [], renderingPages := []
    renderTasks := [], threads := [], nextTaskId := 0, loggedErrors := [] }

/-- The interleaving that defeats the per-page rendering lock.  First a render
for page 1 runs and its promise rejects as cancelled, which leaves its task in
`renderTasksRef` (the `delete` after the `await` is skipped by the `catch`).
Then two `renderPage(1)` calls arrive back to back: each passes the
`renderedPages`/`renderingPagesRef` checks and suspends at the 10 ms
cancellation wait BEFORE taking the lock, so both subsequently take the lock
and both start a render task on the same canvas. -/
def raceTrace : List Step :=
  [Step.call 1,
   Step.resume 0 RenderOutcome.success,
   Step.resume 0 RenderOutcome.failureCancelled,
   Step.call 1,
   Step.call 1,
   Step.resume 0 RenderOutcome.success,
   Step.resume 0 RenderOutcome.success,
   Step.resume 0 RenderOutcome.success,
   Step.resume 0 RenderOutcome.success]

/-! ### Zoom (PdfViewer keyboard handler and zoom buttons) -/

/-- The initial zoom scale: `useState(1.5)`. -/
def initialScale : ℚ := 1.5

/-- Zoom in: `setScale(s => Math.min(s + 0.25, 3))` — identical in the
keyboard handler for "+"/"=" and in the on-screen button. -/
def zoomIn (s : ℚ) : ℚ := min (s + 0.25) 3

/-- Zoom out: `setScale(s => Math.max(s - 0.25, 0.5))` — identical in the
keyboard handler for "-" and in the on-screen button. -/
def zoomOut (s : ℚ) : ℚ := max (s - 0.25) 0.5

/-- A zoom operation: any of the four zoom entry points is one of these two
updater functions. -/
inductive ZoomOp where
  | zoomInOp
  | zoomOutOp
deriving DecidableEq, Repr

/-- Apply one zoom operation. -/
def applyZoom (s : ℚ) : ZoomOp → ℚ
  | ZoomOp.zoomInOp => zoomIn s
  | ZoomOp.zoomOutOp => zoomOut s

/-- A state with page 1 rendered, used to probe the scale-change effect. -/
def staleProbe : SchedState := { initSched with renderedPages := [1] }

/-- A state in which a render promise for page 1 is about to settle: the lock
is held and the task map holds task 0 for page 1. -/
def failProbe : SchedState :=
  { initSched with renderingPages := [1], renderTasks := [(1, 0)] }

/-- Tied observation for page 5, listed first in its batch. -/
def obsA : Entry := { pageIndex := 5, intersectionRatio := 1, isIntersecting := true }

/-- Tied observation for page 2, listed second in its batch. -/
def obsB : Entry := { pageIndex := 2, intersectionRatio := 1, isIntersecting := true }

/-! ### Theorems -/

/-- C1: pause/resume exactness of the session clock.  If the session is
unpaused and `getSessionDuration` reads `E` at time `t0`, pausing at `t0` and
resuming at `t0 + d` (any delay `d ≥ 0`) makes `getSessionDuration` read `E`
again immediately after the resume; the resume shifts `startTime` and the page
marker `lastPageParams.current.time` forward by exactly the pause duration
`d`, and a zero-duration pause/resume is a no-op on the whole state. -/
theorem pause_resume_exact (s : SessionState) (t0 d : Int)
    (hp : s.isPaused = false) (hps : s.pauseStart = none) (hd : 0 ≤ d) :
    getSessionDuration (togglePause (togglePause s t0) (t0 + d)) (t0 + d)
        = getSessionDuration s t0 ∧
    (togglePause (togglePause s t0) (t0 + d)).startTime = s.startTime + d ∧
    (togglePause (togglePause s t0) (t0 + d)).lastTime = s.lastTime + d ∧
    togglePause (togglePause s t0) (t0 + 0) = s := by
  obtain ⟨st, hist, ip, ps, lp, lt⟩ := s
  simp only at hp hps
  subst hp
  subst hps
  refine ⟨?_, ?_, ?_, ?_⟩ <;> simp [togglePause, getSessionDuration] <;> omega

/-- C1 witness: the pause/resume exactness at a concrete state, pausing at
time 100 and resuming 7 ms later. -/
theorem pause_resume_exact_witness :
    getSessionDuration
        (togglePause (togglePause
          { startTime := 40, history := [], isPaused := false,
            pauseStart := none, lastPage := 1, lastTime := 90 } 100) (100 + 7))
        (100 + 7)
      = getSessionDuration
          { startTime := 40, history := [], isPaused := false,
            pauseStart := none, lastPage := 1, lastTime := 90 } 100 :=
  (pause_resume_exact
    { startTime := 40, history := [], isPaused := false, pauseStart := none,
      lastPage := 1, lastTime := 90 } 100 7 rfl rfl (by decide)).1

/-- C9: a page change while paused is pure bookkeeping.  With
`pauseStartRef.current` set (paused), the page-change effect only rewrites the
tracked page index; the ledger, `startTime`, the marker timestamp and the
pause timestamp are untouched and no duration is recorded for the page left
behind. -/
theorem pageChange_paused_bookkeeping (s : SessionState) (p : Nat) (now : Int)
    (hp : s.isPaused = true) :
    pageChangeEffect s p now = { s with lastPage := p } ∧
    (pageChangeEffect s p now).history = s.history ∧
    (pageChangeEffect s p now).startTime = s.startTime ∧
    (pageChangeEffect s p now).lastTime = s.lastTime ∧
    (pageChangeEffect s p now).pauseStart = s.pauseStart := by
  refine ⟨?_, ?_, ?_, ?_, ?_⟩ <;> simp [pageChangeEffect, hp]

/-- C9 witness: the paused page-change at a concrete paused state. -/
theorem pageChange_paused_bookkeeping_witness :
    pageChangeEffect
        { startTime := 40, history := [{ page := 1, duration := 5 }],
          isPaused := true, pauseStart := some 95, lastPage := 1, lastTime := 90 }
        7 120
      = { startTime := 40, history := [{ page := 1, duration := 5 }],
          isPaused := true, pauseStart := some 95, lastPage := 7, lastTime := 90 } :=
  (pageChange_paused_bookkeeping
    { startTime := 40, history := [{ page := 1, duration := 5 }],
      isPaused := true, pauseStart := some 95, lastPage := 1, lastTime := 90 }
    7 120 rfl).1

/-- C6: navigation suppression.  While `isScrollingRef.current` is set (the
navigation lock), an IntersectionObserver batch never changes `visiblePage`:
the callback computes no election at all, whatever the observations are. -/
theorem nav_lock_suppresses_election (vp : Nat) (entries : List Entry) :
    observerElectStep true vp entries = vp := by
  unfold observerElectStep
  split
  · rfl
  · simp

/-- C10: the zoom scale starts at 1.5 and, under any sequence of zoom-in and
zoom-out operations (each adding or subtracting 0.25 and clamping), stays in
the closed interval [0.5, 3]. -/
theorem zoom_scale_invariant (ops : List ZoomOp) :
    initialScale = 1.5 ∧
    0.5 ≤ ops.foldl applyZoom initialScale ∧
    ops.foldl applyZoom initialScale ≤ 3 := by
  refine ⟨rfl, ?_⟩
  have key : ∀ (l : List ZoomOp) (s : ℚ), 0.5 ≤ s → s ≤ 3 →
      0.5 ≤ l.foldl applyZoom s ∧ l.foldl applyZoom s ≤ 3 := by
    intro l
    induction l with
    | nil => intro s h1 h2; exact ⟨h1, h2⟩
    | cons op rest ih =>
        intro s h1 h2
        apply ih
        · cases op
          · exact le_min (by linarith) (by norm_num)
          · exact le_max_right _ _
        · cases op
          · exact min_le_right _ _
          · exact max_le (by linarith) (by norm_num)
  exact key ops initialScale (by norm_num [initialScale]) (by norm_num [initialScale])

/-- C7: idempotence of the render entry point.  When the page is already in
`renderedPages` (rendered at the current scale `s`), a further `renderPage`
call returns at its first check: the state is unchanged — no lock taken, no
thread spawned, no task started. -/
theorem ensureRendered_idempotent (σ : SchedState) (p : Nat) (s : ℚ)
    (hs : σ.scale = s) (h : p ∈ σ.renderedPages) :
    spawn σ p = σ := by
  unfold spawn
  by_cases hc : p ∉ σ.canvases
  · rw [if_pos hc]
  · rw [if_neg hc, if_pos h]

/-- C7 witness: a second `renderPage 1` call on a state where page 1 is
already rendered at the current scale is the identity. -/
theorem ensureRendered_idempotent_witness :
    spawn staleProbe 1 = staleProbe :=
  ensureRendered_idempotent staleProbe 1 1.5 rfl (by decide)

/-- C2: the per-page rendering lock can be defeated.  Running the concrete
interleaving `raceTrace` from a fresh single-page viewer reaches a state with
TWO simultaneously in-flight render operations for page 1, because both
`renderPage(1)` calls pass the `renderingPagesRef` check and then suspend at
the 10 ms cancellation wait before either takes the lock.  This contradicts
the claimed invariant (and the source's own comment that the check "prevents
concurrent render on same canvas"). -/
theorem render_lock_race :
    inFlightCount (runSteps initSched raceTrace) 1 = 2 := by decide

/-- C3 counterexample: a scale change does not mark a rendered page Stale.
With page 1 Rendered, the scale-change effect (`setRenderedPages(new Set())`)
leaves page 1 Unrendered — the status the claim explicitly excludes — and the
loading placeholder is shown again instead of the old raster being kept as the
rendered view. -/
theorem scale_change_not_stale :
    statusOf staleProbe 1 = RenderStatus.Rendered ∧
    statusOf (scaleChangeEffect staleProbe 2) 1 = RenderStatus.Unrendered ∧
    RenderStatus.Unrendered ≠ RenderStatus.Stale ∧
    showsLoadingPlaceholder staleProbe 1 = false ∧
    showsLoadingPlaceholder (scaleChangeEffect staleProbe 2) 1 = true := by
  decide

/-- C5 counterexample: a ratio tie is broken by batch position, not by page
index.  Both observations intersect with ratio 1/2; the claim elects page 2
(the smallest index), but the code's `reduce` keeps the earlier entry and
elects page 5. -/
theorem election_tie_by_position :
    obsA.intersectionRatio = obsB.intersectionRatio ∧
    obsA.isIntersecting = true ∧
    obsB.isIntersecting = true ∧
    obsB.pageIndex < obsA.pageIndex ∧
    electVisible [obsA, obsB] = some obsA := by
  decide

/-- Helper: `findIdx?` on a cons whose head fails the predicate. -/
theorem findIdx?_cons_of_neg {α : Type} (pred : α → Bool) (x : α) (xs : List α)
    (hx : pred x = false) :
    (x :: xs).findIdx? pred = (xs.findIdx? pred).map (fun k => k + 1) := by
  rw [List.findIdx?_cons, hx]
  show xs.findIdx? pred (0 + 1) = _
  rw [List.findIdx?_start_succ]

/-- Helper: `recordHistory` on a cons whose head is the sought page. -/
theorem recordHistory_cons_pos (e : PageTime) (rest : List PageTime) (p : Nat)
    (d : Int) (h : e.page = p) :
    recordHistory (e :: rest) p d = { e with duration := e.duration + d } :: rest := by
  unfold recordHistory
  simp [List.findIdx?_cons, h]

/-- Helper: `recordHistory` skips a head for a different page. -/
theorem recordHistory_cons_neg (e : PageTime) (rest : List PageTime) (p : Nat)
    (d : Int) (h : e.page ≠ p) :
    recordHistory (e :: rest) p d = e :: recordHistory rest p d := by
  unfold recordHistory
  rw [findIdx?_cons_of_neg _ _ _ (by simp [h])]
  cases hj : rest.findIdx? (fun x => x.page == p) with
  | none => simp
  | some j =>
      simp only [hj, Option.map_some']
      rw [List.getElem?_cons_succ]
      cases hg : rest[j]? with
      | none => simp
      | some item => simp [List.set_cons_succ]

/-- Helper: the source ledger update agrees with the specification's
append-or-merge description on every ledger. -/
theorem recordHistory_eq_recordSpec (prev : List PageTime) (p : Nat) (d : Int) :
    recordHistory prev p d = recordSpec prev p d := by
  induction prev with
  | nil => rfl
  | cons e rest ih =>
      by_cases h : e.page = p
      · rw [recordHistory_cons_pos e rest p d h]
        unfold recordSpec
        rw [if_pos h]
      · rw [recordHistory_cons_neg e rest p d h, ih]
        simp only [recordSpec]
        rw [if_neg h]

/-- C4: ledger accumulation on page switch.  The source's findIndex-and-merge
update is exactly the specified append-or-merge operation (an existing entry
for the page accumulates the duration in place, otherwise a fresh entry is
appended at the end); and the concrete scenario — page 3 for 2000 ms, page 4
for 500 ms, page 3 again for 1000 ms — yields exactly the two entries
(3, 3000 ms) and (4, 500 ms) with two distinct pages read. -/
theorem ledger_accumulation :
    (∀ (prev : List PageTime) (p : Nat) (d : Int),
        recordHistory prev p d = recordSpec prev p d) ∧
    scenarioEnd.history
        = [{ page := 3, duration := 3000 }, { page := 4, duration := 500 }] ∧
    totalPagesRead scenarioEnd.history = 2 := by
  refine ⟨recordHistory_eq_recordSpec, ?_, ?_⟩ <;> decide

/-- Helper: `mostVisible` peels one step of the `reduce`. -/
theorem mostVisible_cons (e c : Entry) (rest : List Entry) :
    mostVisible e (c :: rest)
      = mostVisible
          (if e.intersectionRatio < c.intersectionRatio then c else e) rest := rfl

/-- Helper: the seed's ratio never exceeds the `reduce` result's ratio. -/
theorem le_mostVisible_seed (tl : List Entry) :
    ∀ e : Entry, e.intersectionRatio ≤ (mostVisible e tl).intersectionRatio := by
  induction tl with
  | nil => intro e; exact le_refl _
  | cons c rest ih =>
      intro e
      rw [mostVisible_cons]
      by_cases h : e.intersectionRatio < c.intersectionRatio
      · rw [if_pos h]; exact le_trans (le_of_lt h) (ih c)
      · rw [if_neg h]; exact ih e

/-- Helper: the `reduce` result has the greatest ratio in its list. -/
theorem mostVisible_ratio_le (tl : List Entry) :
    ∀ (e : Entry), ∀ x ∈ e :: tl,
      x.intersectionRatio ≤ (mostVisible e tl).intersectionRatio := by
  induction tl with
  | nil =>
      intro e x hx
      rw [List.mem_singleton] at hx
      subst hx
      exact le_refl _
  | cons c rest ih =>
      intro e x hx
      rw [mostVisible_cons]
      rcases List.mem_cons.1 hx with rfl | hx2
      · by_cases h : x.intersectionRatio < c.intersectionRatio
        · rw [if_pos h]; exact le_trans (le_of_lt h) (le_mostVisible_seed rest c)
        · rw [if_neg h]; exact le_mostVisible_seed rest x
      · rcases List.mem_cons.1 hx2 with rfl | hx3
        · by_cases h : e.intersectionRatio < x.intersectionRatio
          · rw [if_pos h]; exact le_mostVisible_seed rest x
          · rw [if_neg h]; exact le_trans (not_lt.1 h) (le_mostVisible_seed rest e)
        · exact ih _ x (List.mem_cons_of_mem _ hx3)

/-- Helper: the `reduce` result is one of the entries. -/
theorem mostVisible_mem (tl : List Entry) :
    ∀ e : Entry, mostVisible e tl ∈ e :: tl := by
  induction tl with
  | nil => intro e; simp [mostVisible]
  | cons c rest ih =>
      intro e
      rw [mostVisible_cons]
      by_cases h : e.intersectionRatio < c.intersectionRatio
      · rw [if_pos h]
        exact List.mem_cons_of_mem e (ih c)
      · rw [if_neg h]
        rcases List.mem_cons.1 (ih e) with h2 | h2
        · rw [h2]; exact List.mem_cons_self _ _
        · exact List.mem_cons_of_mem e (List.mem_cons_of_mem c h2)

/-- Helper: the `reduce` result is the FIRST entry of the list attaining the
maximal ratio (strict `>` keeps the accumulator on ties). -/
theorem mostVisible_first (tl : List Entry) :
    ∀ e : Entry,
      (e :: tl).find?
          (fun x => decide ((mostVisible e tl).intersectionRatio
            ≤ x.intersectionRatio))
        = some (mostVisible e tl) := by
  induction tl with
  | nil =>
      intro e
      simp [mostVisible]
  | cons c rest ih =>
      intro e
      rw [mostVisible_cons]
      by_cases h : e.intersectionRatio < c.intersectionRatio
      · rw [if_pos h]
        have hcm := le_mostVisible_seed rest c
        have he : ¬ ((mostVisible c rest).intersectionRatio
            ≤ e.intersectionRatio) := not_le.2 (lt_of_lt_of_le h hcm)
        rw [List.find?_cons_of_neg _ (by simpa using he)]
        exact ih c
      · rw [if_neg h]
        by_cases hpred : (mostVisible e rest).intersectionRatio
            ≤ e.intersectionRatio
        · have ihe := ih e
          rw [List.find?_cons_of_pos _ (by simpa using hpred)] at ihe
          have hme : mostVisible e rest = e := by
            injection ihe with h2
            exact h2.symm
          rw [hme] at hpred ⊢
          rw [List.find?_cons_of_pos _ (by simpa using hpred)]
        · have ihe := ih e
          rw [List.find?_cons_of_neg _ (by simpa using hpred)] at ihe
          have hc : ¬ ((mostVisible e rest).intersectionRatio
              ≤ c.intersectionRatio) :=
            not_le.2 (lt_of_le_of_lt (not_lt.1 h) (not_le.1 hpred))
          rw [List.find?_cons_of_neg _ (by simpa using hpred),
            List.find?_cons_of_neg _ (by simpa using hc)]
          exact ihe

/-- C5 amended: election rule as implemented.  For every batch, an elected
entry is an intersecting member of the batch with the greatest
intersectionRatio among intersecting observations; when several share that
greatest ratio, the elected one is the FIRST such observation in the batch
(the `reduce` keeps the accumulator on ties), not necessarily the one with
the smallest page index. -/
theorem election_amended (entries : List Entry) (m x : Entry)
    (hm : electVisible entries = some m) (hx : x ∈ entries)
    (hxi : x.isIntersecting = true) :
    m.isIntersecting = true ∧ m ∈ entries ∧
    x.intersectionRatio ≤ m.intersectionRatio ∧
    (entries.filter (fun e => e.isIntersecting)).find?
        (fun e => decide (m.intersectionRatio ≤ e.intersectionRatio))
      = some m := by
  unfold electVisible at hm
  cases hL : entries.filter (fun e => e.isIntersecting) with
  | nil => rw [hL] at hm; cases hm
  | cons e rest =>
      rw [hL] at hm
      have hme : mostVisible e rest = m := by
        injection hm
      subst hme
      have hmem : mostVisible e rest ∈ entries.filter (fun e => e.isIntersecting) := by
        rw [hL]; exact mostVisible_mem rest e
      refine ⟨(List.mem_filter.1 hmem).2, (List.mem_filter.1 hmem).1, ?_, ?_⟩
      · have hxf : x ∈ entries.filter (fun e => e.isIntersecting) :=
          List.mem_filter.2 ⟨hx, hxi⟩
        rw [hL] at hxf
        exact mostVisible_ratio_le rest e x hxf
      · exact mostVisible_first rest e

/-- C5 witness: the amended election rule at the concrete tied batch — the
elected entry is `obsA`, the first of the two tied intersecting entries. -/
theorem election_amended_witness :
    obsA.isIntersecting = true ∧ obsA ∈ [obsA, obsB] ∧
    obsB.intersectionRatio ≤ obsA.intersectionRatio ∧
    ([obsA, obsB].filter (fun e => e.isIntersecting)).find?
        (fun e => decide (obsA.intersectionRatio ≤ e.intersectionRatio))
      = some obsA :=
  election_amended [obsA, obsB] obsA obsB (by decide) (by decide) (by decide)

/-- C3 amended: after a scale change every previously Rendered page (not
concurrently being re-rendered) becomes Unrendered — the rendered set is
cleared wholesale, there is no Stale status — and render work is only ever
triggered for pages with an intersecting visibility observation. -/
theorem scale_change_amended (σ : SchedState) (s2 : ℚ) (p : Nat)
    (entries : List Entry) (q : Nat)
    (h1 : statusOf σ p = RenderStatus.Rendered)
    (h2 : p ∉ σ.renderingPages)
    (h3 : q ∈ renderTriggers entries) :
    statusOf (scaleChangeEffect σ s2) p = RenderStatus.Unrendered ∧
    ∃ e ∈ entries, e.isIntersecting = true ∧ e.pageIndex = q := by
  constructor
  · simp [statusOf, scaleChangeEffect, h2]
  · unfold renderTriggers at h3
    obtain ⟨e, he, hfe⟩ := List.mem_filterMap.1 h3
    obtain ⟨hee, hint⟩ := List.mem_filter.1 he
    refine ⟨e, hee, hint, ?_⟩
    by_cases hp0 : 0 < e.pageIndex
    · rw [if_pos hp0] at hfe
      injection hfe
    · rw [if_neg hp0] at hfe
      cases hfe

/-- C3 witness: the amended scale-change behaviour at the concrete rendered
state, with the trigger list of a batch containing the single intersecting
observation `obsA`. -/
theorem scale_change_amended_witness :
    statusOf (scaleChangeEffect staleProbe 2) 1 = RenderStatus.Unrendered :=
  (scale_change_amended staleProbe 2 1 [obsA] 5 (by decide) (by decide)
    (by decide)).1

/-- C8: containment of render failures.  When the render promise for page `p`
settles with any failure, the page is not added to `renderedPages`, the
per-page lock is always released (the `finally`), the page's record reads
Unrendered again, the failure is reported through `console.error` exactly when
it is not a cancellation/superseded signal, and every other page's record is
untouched. -/
theorem render_failure_contained (σ : SchedState) (p t q : Nat)
    (out : RenderOutcome) (hout : out ≠ RenderOutcome.success)
    (hpr : p ∉ σ.renderedPages) (hq : q ≠ p) :
    (resumeThread σ ⟨p, ThreadPC.awaitingRender t⟩ out).renderedPages
        = σ.renderedPages ∧
    p ∉ (resumeThread σ ⟨p, ThreadPC.awaitingRender t⟩ out).renderingPages ∧
    statusOf (resumeThread σ ⟨p, ThreadPC.awaitingRender t⟩ out) p
        = RenderStatus.Unrendered ∧
    (resumeThread σ ⟨p, ThreadPC.awaitingRender t⟩ out).loggedErrors
        = (if out = RenderOutcome.failureOther
            then σ.loggedErrors ++ [p] else σ.loggedErrors) ∧
    statusOf (resumeThread σ ⟨p, ThreadPC.awaitingRender t⟩ out) q
        = statusOf σ q := by
  cases out with
  | success => exact absurd rfl hout
  | failureCancelled =>
      refine ⟨rfl, ?_, ?_, ?_, ?_⟩
      · simp [resumeThread, setErase, List.mem_filter]
      · simp [resumeThread, statusOf, hpr, setErase, List.mem_filter]
      · simp [resumeThread]
      · simp [resumeThread, statusOf, setErase, List.mem_filter, hq]
  | failureOther =>
      refine ⟨rfl, ?_, ?_, ?_, ?_⟩
      · simp [resumeThread, setErase, List.mem_filter]
      · simp [resumeThread, statusOf, hpr, setErase, List.mem_filter]
      · simp [resumeThread]
      · simp [resumeThread, statusOf, setErase, List.mem_filter, hq]

/-- C8 witness: a cancelled render failure for page 1 at the concrete state
`failProbe`, with page 2 as the untouched other page. -/
theorem render_failure_contained_witness :
    (resumeThread failProbe ⟨1, ThreadPC.awaitingRender 0⟩
        RenderOutcome.failureCancelled).renderedPages
      = failProbe.renderedPages ∧
    1 ∉ (resumeThread failProbe ⟨1, ThreadPC.awaitingRender 0⟩
        RenderOutcome.failureCancelled).renderingPages ∧
    statusOf (resumeThread failProbe ⟨1, ThreadPC.awaitingRender 0⟩
        RenderOutcome.failureCancelled) 1 = RenderStatus.Unrendered ∧
    (resumeThread failProbe ⟨1, ThreadPC.awaitingRender 0⟩
        RenderOutcome.failureCancelled).loggedErrors
      = (if RenderOutcome.failureCancelled = RenderOutcome.failureOther
          then failProbe.loggedErrors ++ [1] else failProbe.loggedErrors) ∧
    statusOf (resumeThread failProbe ⟨1, ThreadPC.awaitingRender 0⟩
        RenderOutcome.failureCancelled) 2 = statusOf failProbe 2 :=
  render_failure_contained failProbe 1 0 2 RenderOutcome.failureCancelled
    (by decide) (by decide) (by decide)

end PdfReader
